import Mathlib

/-!
Verification of the `image_upload.py` command-line uploader.

The program reads `sys.argv[1]` (a file path), derives a file name with
`file_path.split('/')[-1]`, reads the file bytes, base64-encodes them,
builds a JSON payload with five fields, issues one HTTP POST to a fixed
URL with an `X-Token` header taken from `sys.argv[2]`, and prints the
JSON-parsed response body.

The embedding below models bytes as natural numbers below 256, the
filesystem as a partial map from paths to byte lists, and the network as
a function from the single request to an outcome (no response, or a
response with a status code and raw body).  JSON parsing of the response
body is a parameter, since the source delegates it to a library.
-/

namespace ImageUpload

/-- Byte sequences are lists of naturals; the file system yields bytes
below 256, which theorems carry as an explicit hypothesis. -/
abbrev Bytes := List Nat

/-! ### Base64 (standard alphabet, padded), as `base64.b64encode` -/

/-- The standard base64 alphabet, in index order. -/
def b64Alphabet : List Char :=
  "ABCDEFGHIJKLMNOPQRSTUVWXYZabcdefghijklmnopqrstuvwxyz0123456789+/".data

/-- Character for a 6-bit value. -/
def b64Char (n : Nat) : Char := b64Alphabet.getD n 'A'

/-- Index of a character in the base64 alphabet, if any. -/
def b64CharVal (c : Char) : Option Nat :=
  b64Alphabet.indexOf? c

/-- Standard padded base64 encoding of a byte sequence, three input
bytes per four output characters, exactly as `base64.b64encode`. -/
def b64EncodeBytes : Bytes → List Char
  | [] => []
  | [b0] =>
      [b64Char (b0 / 4), b64Char (b0 % 4 * 16), '=', '=']
  | [b0, b1] =>
      [b64Char (b0 / 4), b64Char (b0 % 4 * 16 + b1 / 16),
       b64Char (b1 % 16 * 4), '=']
  | b0 :: b1 :: b2 :: rest =>
      b64Char (b0 / 4) :: b64Char (b0 % 4 * 16 + b1 / 16) ::
      b64Char (b1 % 16 * 4 + b2 / 64) :: b64Char (b2 % 64) ::
      b64EncodeBytes rest

/-- Decode a final (possibly padded) base64 quantum. -/
def b64DecodeLast (c0 c1 c2 c3 : Char) : Option Bytes :=
  match b64CharVal c0, b64CharVal c1 with
  | some v0, some v1 =>
      if c2 = '=' ∧ c3 = '=' then
        some [v0 * 4 + v1 / 16]
      else
        match b64CharVal c2 with
        | some v2 =>
            if c3 = '=' then
              some [v0 * 4 + v1 / 16, v1 % 16 * 16 + v2 / 4]
            else
              match b64CharVal c3 with
              | some v3 =>
                  some [v0 * 4 + v1 / 16, v1 % 16 * 16 + v2 / 4,
                        v2 % 4 * 64 + v3]
              | none => none
        | none => none
  | _, _ => none

/-- Decode a non-final base64 quantum (no padding allowed). -/
def b64DecodeGroup (c0 c1 c2 c3 : Char) : Option Bytes :=
  match b64CharVal c0, b64CharVal c1, b64CharVal c2, b64CharVal c3 with
  | some v0, some v1, some v2, some v3 =>
      some [v0 * 4 + v1 / 16, v1 % 16 * 16 + v2 / 4, v2 % 4 * 64 + v3]
  | _, _, _, _ => none

/-- Standard base64 decoding: quanta of four characters, padding only in
the final quantum. -/
def b64DecodeChars : List Char → Option Bytes
  | [] => some []
  | c0 :: c1 :: c2 :: c3 :: rest =>
      if rest = [] then
        b64DecodeLast c0 c1 c2 c3
      else
        match b64DecodeGroup c0 c1 c2 c3, b64DecodeChars rest with
        | some bs, some bs2 => some (bs ++ bs2)
        | _, _ => none
  | _ => none

/-! ### Name extraction: `file_path.split('/')[-1]` -/

/-- Python's `str.split(sep)` for a one-character separator: splits on
every occurrence, keeps empty segments, always returns at least one
segment. -/
def splitOnChar (sep : Char) : List Char → List (List Char)
  | [] => [[]]
  | c :: cs =>
      if c = sep then [] :: splitOnChar sep cs
      else
        match splitOnChar sep cs with
        | [] => [[c]]
        | r :: rs => (c :: r) :: rs

/-- `file_path.split('/')[-1]`: the last segment of the split. -/
def fileNameOf (file_path : String) : String :=
  String.mk ((splitOnChar '/' file_path.data).getLastD [])

/-! ### The program -/

/-- A JSON value as used in the request payload. -/
inductive JsonVal where
  | str : String → JsonVal
  | bool : Bool → JsonVal
deriving DecidableEq, Repr

/-- The single outbound HTTP POST request. -/
structure Request where
  url : String
  json : List (String × JsonVal)
  headers : List (String × String)
deriving DecidableEq, Repr

/-- Outcome of the network call: no response (connection failure), or a
response with a status code and a raw body. -/
inductive NetOutcome where
  | noResponse : NetOutcome
  | response : Nat → String → NetOutcome
deriving DecidableEq, Repr

/-- The error taxonomy of the specification; each Python exception site
maps to one of these. -/
inductive ProgError where
  | ArgumentError : ProgError
  | FileAccessError : ProgError
  | NetworkError : ProgError
  | ResponseParseError : ProgError
deriving DecidableEq, Repr

/-- Observable result of one invocation: everything printed to standard
output, every HTTP POST issued, and the error that aborted the run, if
any. -/
structure RunResult (ρ : Type) where
  stdout : List ρ
  posts : List Request
  error : Option ProgError
deriving DecidableEq, Repr

/-- The hardcoded endpoint. -/
def filesUrl : String := "http://0.0.0.0:5001/files"

/-- The JSON body `r_json` built by the program. -/
def buildJson (file_name file_encoded parent_id : String) :
    List (String × JsonVal) :=
  [("name", JsonVal.str file_name),
   ("type", JsonVal.str "image"),
   ("isPublic", JsonVal.bool true),
   ("data", JsonVal.str file_encoded),
   ("parentId", JsonVal.str parent_id)]

/-- The request the program sends, given the three inputs and the file
bytes. -/
def buildRequest (file_path token parent_id : String) (bytes : Bytes) :
    Request :=
  { url := filesUrl,
    json := buildJson (fileNameOf file_path)
      (String.mk (b64EncodeBytes bytes)) parent_id,
    headers := [("X-Token", token)] }

/-- `print(r.json())`: printing the parse result of the response body,
or aborting with `ResponseParseError` when the body is not JSON. -/
def printResponse {ρ : Type} (r : Request) (parsed : Option ρ) :
    RunResult ρ :=
  match parsed with
  | none => ⟨[], [r], some ProgError.ResponseParseError⟩
  | some v => ⟨[v], [r], none⟩

/-- Lines 22-23 of the source: issue the POST and print the parsed
response.  A connection-level failure aborts with `NetworkError`. -/
def finishRequest {ρ : Type} (r : Request) (net : Request → NetOutcome)
    (parse : String → Option ρ) : RunResult ρ :=
  match net r with
  | NetOutcome.noResponse => ⟨[], [r], some ProgError.NetworkError⟩
  | NetOutcome.response _status body => printResponse r (parse body)

/-- One invocation of `image_upload.py`, step for step in source order:
`sys.argv[1]`, name derivation, file open and read, base64 encoding,
`r_json` (which reads `sys.argv[3]`), `r_headers` (which reads
`sys.argv[2]`), the POST, and `print(r.json())`.  A missing `sys.argv`
index raises `ArgumentError`; a failed file open raises
`FileAccessError`; a network failure raises `NetworkError`; an
unparseable body raises `ResponseParseError`. -/
def run {ρ : Type} (sys_argv : List String)
    (fs : String → Option Bytes)
    (net : Request → NetOutcome)
    (parse : String → Option ρ) : RunResult ρ :=
  match sys_argv[1]? with
  | none => ⟨[], [], some ProgError.ArgumentError⟩
  | some file_path =>
      match fs file_path with
      | none => ⟨[], [], some ProgError.FileAccessError⟩
      | some bytes =>
          match sys_argv[3]? with
          | none => ⟨[], [], some ProgError.ArgumentError⟩
          | some parent_id =>
              match sys_argv[2]? with
              | none => ⟨[], [], some ProgError.ArgumentError⟩
              | some token =>
                  finishRequest (buildRequest file_path token parent_id bytes)
                    net parse

/-! ### Helper lemmas -/

lemma getLastD_irrel {α : Type} (l : List α) (h : l ≠ []) (a b : α) :
    l.getLastD a = l.getLastD b := by
  cases l with
  | nil => exact absurd rfl h
  | cons x xs => rw [List.getLastD_cons, List.getLastD_cons]

lemma splitOnChar_ne_nil (sep : Char) (l : List Char) :
    splitOnChar sep l ≠ [] := by
  cases l with
  | nil => simp [splitOnChar]
  | cons c cs =>
      by_cases hc : c = sep
      · simp [splitOnChar, hc]
      · simp only [splitOnChar, if_neg hc]
        cases hs : splitOnChar sep cs <;> simp

lemma splitOnChar_of_not_mem {sep : Char} {l : List Char} (h : sep ∉ l) :
    splitOnChar sep l = [l] := by
  induction l with
  | nil => rfl
  | cons c cs ih =>
      have hc : c ≠ sep := fun e => h (e ▸ List.mem_cons_self c cs)
      have hcs : sep ∉ cs := fun m => h (List.mem_cons_of_mem _ m)
      simp only [splitOnChar, if_neg hc, ih hcs]

lemma splitOnChar_cons_sep (sep : Char) (r : List Char) :
    splitOnChar sep (sep :: r) = [] :: splitOnChar sep r := by
  simp [splitOnChar]

lemma two_le_splitOnChar_length (sep : Char) (x r : List Char) :
    2 ≤ (splitOnChar sep (x ++ sep :: r)).length := by
  induction x with
  | nil =>
      rw [List.nil_append, splitOnChar_cons_sep, List.length_cons]
      have h0 : splitOnChar sep r ≠ [] := splitOnChar_ne_nil sep r
      have h1 : (splitOnChar sep r).length ≠ 0 := by simpa using h0
      omega
  | cons c x ih =>
      rw [List.cons_append]
      by_cases hc : c = sep
      · subst hc
        rw [splitOnChar_cons_sep, List.length_cons]
        omega
      · simp only [splitOnChar, if_neg hc]
        cases hs : splitOnChar sep (x ++ sep :: r) with
        | nil => exact absurd hs (splitOnChar_ne_nil _ _)
        | cons r0 rs =>
            rw [hs] at ih
            simpa using ih

lemma splitOnChar_getLastD_append (sep : Char) (x r : List Char) :
    (splitOnChar sep (x ++ sep :: r)).getLastD [] =
      (splitOnChar sep r).getLastD [] := by
  induction x with
  | nil =>
      rw [List.nil_append, splitOnChar_cons_sep, List.getLastD_cons]
  | cons c x ih =>
      rw [List.cons_append]
      by_cases hc : c = sep
      · subst hc
        rw [splitOnChar_cons_sep, List.getLastD_cons, ← ih]
      · simp only [splitOnChar, if_neg hc]
        cases hs : splitOnChar sep (x ++ sep :: r) with
        | nil => exact absurd hs (splitOnChar_ne_nil _ _)
        | cons r0 rs =>
            cases rs with
            | nil =>
                exfalso
                have h2 := two_le_splitOnChar_length sep x r
                rw [hs] at h2
                simp at h2
            | cons r1 rs2 =>
                rw [hs, List.getLastD_cons] at ih
                rw [List.getLastD_cons, ← ih]
                exact getLastD_irrel _ (by simp) _ _

lemma splitOnChar_getLastD_ne_nil {sep a : Char} (ha : a ≠ sep)
    (l : List Char) :
    (splitOnChar sep (l ++ [a])).getLastD [] ≠ [] := by
  induction l with
  | nil =>
      simp [splitOnChar, if_neg ha]
  | cons c l ih =>
      rw [List.cons_append]
      by_cases hc : c = sep
      · subst hc
        rw [splitOnChar_cons_sep, List.getLastD_cons]
        exact ih
      · simp only [splitOnChar, if_neg hc]
        cases hs : splitOnChar sep (l ++ [a]) with
        | nil => exact absurd hs (splitOnChar_ne_nil _ _)
        | cons r0 rs =>
            cases rs with
            | nil => simp
            | cons r1 rs2 =>
                rw [hs, List.getLastD_cons] at ih
                rw [List.getLastD_cons, getLastD_irrel _ (by simp) _ r0]
                exact ih

lemma b64CharVal_b64Char {n : Nat} (h : n < 64) :
    b64CharVal (b64Char n) = some n := by
  interval_cases n <;> rfl

lemma b64Char_ne_pad {n : Nat} (h : n < 64) : b64Char n ≠ '=' := by
  interval_cases n <;> decide

lemma b64EncodeBytes_ne_nil {B : Bytes} (h : B ≠ []) :
    b64EncodeBytes B ≠ [] := by
  match B with
  | [] => exact absurd rfl h
  | [b0] => simp [b64EncodeBytes]
  | [b0, b1] => simp [b64EncodeBytes]
  | b0 :: b1 :: b2 :: rest => simp [b64EncodeBytes]

/-- Decoding inverts encoding on byte sequences. -/
lemma b64_roundtrip (B : Bytes) (h : ∀ b ∈ B, b < 256) :
    b64DecodeChars (b64EncodeBytes B) = some B := by
  induction B using b64EncodeBytes.induct with
  | case1 => rfl
  | case2 b0 =>
      have hb0 : b0 < 256 := h b0 (by simp)
      simp only [b64EncodeBytes, b64DecodeChars, b64DecodeLast,
        b64CharVal_b64Char (show b0 / 4 < 64 by omega),
        b64CharVal_b64Char (show b0 % 4 * 16 < 64 by omega)]
      rw [if_pos trivial, if_pos ⟨trivial, trivial⟩, Option.some_inj]
      have e1 : b0 / 4 * 4 + b0 % 4 * 16 / 16 = b0 := by omega
      rw [e1]
  | case3 b0 b1 =>
      have hb0 : b0 < 256 := h b0 (by simp)
      have hb1 : b1 < 256 := h b1 (by simp)
      simp only [b64EncodeBytes, b64DecodeChars, b64DecodeLast,
        b64CharVal_b64Char (show b0 / 4 < 64 by omega),
        b64CharVal_b64Char (show b0 % 4 * 16 + b1 / 16 < 64 by omega),
        b64CharVal_b64Char (show b1 % 16 * 4 < 64 by omega)]
      rw [if_pos trivial,
        if_neg (fun hc => b64Char_ne_pad (show b1 % 16 * 4 < 64 by omega) hc.1),
        if_pos trivial, Option.some_inj]
      have e1 : b0 / 4 * 4 + (b0 % 4 * 16 + b1 / 16) / 16 = b0 := by omega
      have e2 : (b0 % 4 * 16 + b1 / 16) % 16 * 16 + b1 % 16 * 4 / 4 = b1 := by
        omega
      rw [e1, e2]
  | case4 b0 b1 b2 rest ih =>
      have hb0 : b0 < 256 := h b0 (by simp)
      have hb1 : b1 < 256 := h b1 (by simp)
      have hb2 : b2 < 256 := h b2 (by simp)
      have hrest : ∀ b ∈ rest, b < 256 := fun b hb => h b (by simp [hb])
      have e1 : b0 / 4 * 4 + (b0 % 4 * 16 + b1 / 16) / 16 = b0 := by omega
      have e2 : (b0 % 4 * 16 + b1 / 16) % 16 * 16 +
          (b1 % 16 * 4 + b2 / 64) / 4 = b1 := by omega
      have e3 : (b1 % 16 * 4 + b2 / 64) % 4 * 64 + b2 % 64 = b2 := by omega
      rcases eq_or_ne rest [] with hr | hr
      · subst hr
        simp only [b64EncodeBytes, b64DecodeChars, b64DecodeLast,
          b64CharVal_b64Char (show b0 / 4 < 64 by omega),
          b64CharVal_b64Char (show b0 % 4 * 16 + b1 / 16 < 64 by omega),
          b64CharVal_b64Char (show b1 % 16 * 4 + b2 / 64 < 64 by omega),
          b64CharVal_b64Char (show b2 % 64 < 64 by omega)]
        rw [if_pos trivial,
          if_neg (fun hc =>
            b64Char_ne_pad (show b1 % 16 * 4 + b2 / 64 < 64 by omega) hc.1),
          if_neg (b64Char_ne_pad (show b2 % 64 < 64 by omega)), Option.some_inj]
        rw [e1, e2, e3]
      · have henc := b64EncodeBytes_ne_nil hr
        simp only [b64EncodeBytes, b64DecodeChars, if_neg henc, b64DecodeGroup,
          b64CharVal_b64Char (show b0 / 4 < 64 by omega),
          b64CharVal_b64Char (show b0 % 4 * 16 + b1 / 16 < 64 by omega),
          b64CharVal_b64Char (show b1 % 16 * 4 + b2 / 64 < 64 by omega),
          b64CharVal_b64Char (show b2 % 64 < 64 by omega),
          ih hrest]
        rw [Option.some_inj, e1, e2, e3]
        rfl

lemma printResponse_posts {ρ : Type} (r : Request) (o : Option ρ) :
    (printResponse r o).posts = [r] := by
  cases o <;> rfl

lemma finishRequest_posts {ρ : Type} (r : Request)
    (net : Request → NetOutcome) (parse : String → Option ρ) :
    (finishRequest r net parse).posts = [r] := by
  unfold finishRequest
  cases net r with
  | noResponse => rfl
  | response st body => exact printResponse_posts r (parse body)


lemma fileNameOf_of_not_mem {p : String} (h : '/' ∉ p.data) : fileNameOf p = p := by
  unfold fileNameOf
  rw [splitOnChar_of_not_mem h]
  rfl

lemma fileNameOf_last_seg {p : String} {l r : List Char}
    (hp : p.data = l ++ '/' :: r) (hr : '/' ∉ r) : fileNameOf p = String.mk r := by
  unfold fileNameOf
  rw [hp, splitOnChar_getLastD_append, splitOnChar_of_not_mem hr]
  rfl

lemma fileNameOf_ends_sep {p : String} (h : p.data.getLast? = some '/') :
    fileNameOf p = "" := by
  have hne : p.data ≠ [] := by
    intro e
    rw [e] at h
    simp at h
  have hlast : p.data.getLast hne = '/' := by
    have := List.getLast?_eq_getLast p.data hne
    rw [h] at this
    exact (Option.some_inj.mp this).symm
  have hdecomp : p.data = p.data.dropLast ++ '/' :: [] := by
    conv_lhs => rw [← List.dropLast_append_getLast hne]
    rw [hlast]
  unfold fileNameOf
  rw [hdecomp, splitOnChar_getLastD_append]
  rfl

lemma fileNameOf_ne_empty {p : String} (hne : p.data ≠ [])
    (hlast : p.data.getLast? ≠ some '/') : fileNameOf p ≠ "" := by
  have hdecomp : p.data = p.data.dropLast ++ [p.data.getLast hne] :=
    (List.dropLast_append_getLast hne).symm
  have ha : p.data.getLast hne ≠ '/' := by
    intro e
    exact hlast (by rw [List.getLast?_eq_getLast _ hne, e])
  intro hmk
  have hdata : (splitOnChar '/' p.data).getLastD [] = [] :=
    congrArg String.data hmk
  rw [hdecomp] at hdata
  exact splitOnChar_getLastD_ne_nil ha _ hdata

/-- C3: for every filePath, `name` equals the substring after the final
path separator, and equals filePath unchanged when no separator occurs. -/
theorem c3_name_extraction (p : String) :
    (∀ l r : List Char, p.data = l ++ '/' :: r → '/' ∉ r →
      fileNameOf p = String.mk r) ∧
    ('/' ∉ p.data → fileNameOf p = p) :=
  ⟨fun _l _r hp hr => fileNameOf_last_seg hp hr, fun h => fileNameOf_of_not_mem h⟩

/-- C3 witness: the two spec examples evaluated concretely. -/
theorem c3_name_extraction_witness :
    fileNameOf "a/b/c/photo.png" = "photo.png" ∧
    fileNameOf "photo.png" = "photo.png" :=
  ⟨(c3_name_extraction "a/b/c/photo.png").1 ("a/b/c".data) ("photo.png".data)
      (by decide) (by decide),
   (c3_name_extraction "photo.png").2 (by decide)⟩
/-- C9 counterexample: the path "a/" has a non-separator (non-empty)
segment, yet the derived name is empty. -/
theorem c9_counterexample :
    (∃ seg ∈ splitOnChar '/' ("a/" : String).data, seg ≠ []) ∧
    fileNameOf "a/" = "" := by
  decide

/-- C9 amended: for every non-empty input path that does not end with
the separator, the derived name is non-empty. -/
theorem c9_amended_nonempty_name (p : String) (hne : p.data ≠ [])
    (hlast : p.data.getLast? ≠ some '/') : fileNameOf p ≠ "" :=
  fileNameOf_ne_empty hne hlast

/-- C9 witness: the amended theorem at the concrete path "photo.png". -/
theorem c9_amended_nonempty_name_witness : fileNameOf "photo.png" ≠ "" :=
  c9_amended_nonempty_name "photo.png" (by decide) (by decide)

/-- C10: only '/' separates path segments (any path free of '/' is its
own name), and a path ending in '/' yields the empty name while the
request is still constructed and sent with that empty name. -/
theorem c10_only_slash_separator {ρ : Type} (sys_argv : List String)
    (fs : String → Option Bytes) (net : Request → NetOutcome)
    (parse : String → Option ρ) (p tok pid : String) (B : Bytes)
    (h1 : sys_argv[1]? = some p) (h2 : sys_argv[2]? = some tok)
    (h3 : sys_argv[3]? = some pid) (hfs : fs p = some B)
    (hends : p.data.getLast? = some '/') :
    (∀ q : String, '/' ∉ q.data → fileNameOf q = q) ∧
    fileNameOf p = "" ∧
    (run sys_argv fs net parse).posts = [buildRequest p tok pid B] ∧
    (buildRequest p tok pid B).json.lookup "name" = some (JsonVal.str "") := by
  refine ⟨fun q hq => fileNameOf_of_not_mem hq, fileNameOf_ends_sep hends, ?_, ?_⟩
  · simp only [run, h1, h2, h3, hfs]
    exact finishRequest_posts _ _ _
  · simp [buildRequest, buildJson, fileNameOf_ends_sep hends]

/-- C10 witness: path "pics/" with a readable two-byte file. -/
theorem c10_only_slash_separator_witness :
    (∀ q : String, '/' ∉ q.data → fileNameOf q = q) ∧
    fileNameOf "pics/" = "" ∧
    (run ["prog", "pics/", "tok", "7"]
      (fun q => if q = "pics/" then some [1, 2] else none)
      (fun _ => NetOutcome.response 201 "null")
      (fun _ => some (JsonVal.str "ok"))).posts =
      [buildRequest "pics/" "tok" "7" [1, 2]] ∧
    (buildRequest "pics/" "tok" "7" [1, 2]).json.lookup "name" =
      some (JsonVal.str "") :=
  c10_only_slash_separator ["prog", "pics/", "tok", "7"]
    (fun q => if q = "pics/" then some [1, 2] else none)
    (fun _ => NetOutcome.response 201 "null")
    (fun _ => some (JsonVal.str "ok")) "pics/" "tok" "7" [1, 2]
    rfl rfl rfl (by decide) (by decide)
/-- C1: the `data` field of the constructed payload base64-decodes back
to exactly the bytes read from the file. -/
theorem c1_data_roundtrip {ρ : Type} (sys_argv : List String)
    (fs : String → Option Bytes) (net : Request → NetOutcome)
    (parse : String → Option ρ) (p tok pid : String) (B : Bytes)
    (h1 : sys_argv[1]? = some p) (h2 : sys_argv[2]? = some tok)
    (h3 : sys_argv[3]? = some pid) (hfs : fs p = some B)
    (hB : ∀ b ∈ B, b < 256) :
    ∃ req : Request, (run sys_argv fs net parse).posts = [req] ∧
      ∃ s : String, req.json.lookup "data" = some (JsonVal.str s) ∧
        b64DecodeChars s.data = some B := by
  refine ⟨buildRequest p tok pid B, ?_, String.mk (b64EncodeBytes B), ?_, ?_⟩
  · simp only [run, h1, h2, h3, hfs]
    exact finishRequest_posts _ _ _
  · rfl
  · exact b64_roundtrip B hB

/-- C1 witness: a concrete two-byte file. -/
theorem c1_data_roundtrip_witness :
    (∀ b ∈ ([72, 105] : Bytes), b < 256) ∧
    ∃ req : Request,
      (run ["prog", "f.png", "tok", "42"]
        (fun q => if q = "f.png" then some [72, 105] else none)
        (fun _ => NetOutcome.response 201 "null")
        (fun _ => some (JsonVal.str "ok"))).posts = [req] ∧
      ∃ s : String, req.json.lookup "data" = some (JsonVal.str s) ∧
        b64DecodeChars s.data = some [72, 105] :=
  ⟨by decide,
   c1_data_roundtrip ["prog", "f.png", "tok", "42"]
    (fun q => if q = "f.png" then some [72, 105] else none)
    (fun _ => NetOutcome.response 201 "null")
    (fun _ => some (JsonVal.str "ok")) "f.png" "tok" "42" [72, 105]
    rfl rfl rfl (by decide) (by decide)⟩

/-- C2: every issued POST (there is at most one) carries the X-Token
header equal to the second argument and a JSON body with exactly the
five keys, `type = "image"`, `isPublic = true`, and `parentId` equal to
the third argument. -/
theorem c2_argument_forwarding {ρ : Type} (sys_argv : List String)
    (fs : String → Option Bytes) (net : Request → NetOutcome)
    (parse : String → Option ρ) (p tok pid : String)
    (h1 : sys_argv[1]? = some p) (h2 : sys_argv[2]? = some tok)
    (h3 : sys_argv[3]? = some pid) :
    (run sys_argv fs net parse).posts.length ≤ 1 ∧
    ∀ req ∈ (run sys_argv fs net parse).posts,
      req.headers = [("X-Token", tok)] ∧
      req.json.map Prod.fst = ["name", "type", "isPublic", "data", "parentId"] ∧
      req.json.lookup "type" = some (JsonVal.str "image") ∧
      req.json.lookup "isPublic" = some (JsonVal.bool true) ∧
      req.json.lookup "parentId" = some (JsonVal.str pid) := by
  cases hfs : fs p with
  | none => simp [run, h1, hfs]
  | some B =>
      have hp : (run sys_argv fs net parse).posts = [buildRequest p tok pid B] := by
        simp only [run, h1, h2, h3, hfs]
        exact finishRequest_posts _ _ _
      rw [hp]
      refine ⟨by simp, ?_⟩
      intro req hreq
      rw [List.mem_singleton] at hreq
      subst hreq
      exact ⟨rfl, rfl, rfl, rfl, rfl⟩

/-- C2 witness: concrete three-argument invocation. -/
theorem c2_argument_forwarding_witness :
    (run ["prog", "f.png", "sekret", "42"]
      (fun q => if q = "f.png" then some [1, 2, 3] else none)
      (fun _ => NetOutcome.response 200 "null")
      (fun _ => some (JsonVal.str "ok"))).posts.length ≤ 1 ∧
    ∀ req ∈ (run ["prog", "f.png", "sekret", "42"]
      (fun q => if q = "f.png" then some [1, 2, 3] else none)
      (fun _ => NetOutcome.response 200 "null")
      (fun _ => some (JsonVal.str "ok"))).posts,
      req.headers = [("X-Token", "sekret")] ∧
      req.json.map Prod.fst = ["name", "type", "isPublic", "data", "parentId"] ∧
      req.json.lookup "type" = some (JsonVal.str "image") ∧
      req.json.lookup "isPublic" = some (JsonVal.bool true) ∧
      req.json.lookup "parentId" = some (JsonVal.str "42") :=
  c2_argument_forwarding ["prog", "f.png", "sekret", "42"]
    (fun q => if q = "f.png" then some [1, 2, 3] else none)
    (fun _ => NetOutcome.response 200 "null")
    (fun _ => some (JsonVal.str "ok")) "f.png" "sekret" "42" rfl rfl rfl

/-- C4: an unreadable path aborts with FileAccessError before any POST
is issued or anything is printed. -/
theorem c4_missing_file {ρ : Type} (sys_argv : List String)
    (fs : String → Option Bytes) (net : Request → NetOutcome)
    (parse : String → Option ρ) (p : String)
    (h1 : sys_argv[1]? = some p) (hfs : fs p = none) :
    (run sys_argv fs net parse).error = some ProgError.FileAccessError ∧
    (run sys_argv fs net parse).posts = [] ∧
    (run sys_argv fs net parse).stdout = [] := by
  simp [run, h1, hfs]

/-- C4 witness: concrete invocation on an empty file system. -/
theorem c4_missing_file_witness :
    (run ["prog", "nope.png", "tok", "0"] (fun _ => none)
      (fun _ => NetOutcome.response 200 "null")
      (fun _ => some (JsonVal.str "ok"))).error =
        some ProgError.FileAccessError ∧
    (run ["prog", "nope.png", "tok", "0"] (fun _ => none)
      (fun _ => NetOutcome.response 200 "null")
      (fun _ => some (JsonVal.str "ok"))).posts = [] ∧
    (run ["prog", "nope.png", "tok", "0"] (fun _ => none)
      (fun _ => NetOutcome.response 200 "null")
      (fun _ => some (JsonVal.str "ok"))).stdout = [] :=
  c4_missing_file ["prog", "nope.png", "tok", "0"] (fun _ => none)
    (fun _ => NetOutcome.response 200 "null")
    (fun _ => some (JsonVal.str "ok")) "nope.png" rfl rfl
lemma printResponse_anatomy {ρ : Type} (r : Request) (o : Option ρ) :
    ((printResponse r o).error = none ∧ (printResponse r o).posts.length = 1 ∧
      ∃ v, (printResponse r o).stdout = [v]) ∨
    ((printResponse r o).error ≠ none ∧ (printResponse r o).stdout = []) := by
  cases o with
  | none => exact Or.inr ⟨by simp [printResponse], rfl⟩
  | some v => exact Or.inl ⟨rfl, rfl, v, rfl⟩

/-- C5: an unparseable response body aborts with ResponseParseError and
prints nothing; a parseable one is printed. -/
theorem c5_response_parse {ρ : Type} (sys_argv : List String)
    (fs : String → Option Bytes) (net : Request → NetOutcome)
    (parse : String → Option ρ) (p tok pid : String) (B : Bytes)
    (h1 : sys_argv[1]? = some p) (h2 : sys_argv[2]? = some tok)
    (h3 : sys_argv[3]? = some pid) (hfs : fs p = some B)
    (st : Nat) (body : String)
    (hnet : net (buildRequest p tok pid B) = NetOutcome.response st body) :
    (parse body = none →
      (run sys_argv fs net parse).error = some ProgError.ResponseParseError ∧
      (run sys_argv fs net parse).stdout = []) ∧
    (∀ v, parse body = some v →
      (run sys_argv fs net parse).stdout = [v] ∧
      (run sys_argv fs net parse).error = none) := by
  have hrun : run sys_argv fs net parse =
      printResponse (buildRequest p tok pid B) (parse body) := by
    simp only [run, h1, h2, h3, hfs, finishRequest, hnet]
  rw [hrun]
  constructor
  · intro hp
    rw [hp]
    exact ⟨rfl, rfl⟩
  · intro v hp
    rw [hp]
    exact ⟨rfl, rfl⟩

/-- C5 witness: a server answering 200 with a non-JSON body. -/
theorem c5_response_parse_witness :
    ((fun _ : String => (none : Option JsonVal)) "oops" = none →
      (run ["prog", "f.png", "tok", "1"]
        (fun q => if q = "f.png" then some [9] else none)
        (fun _ => NetOutcome.response 200 "oops")
        (fun _ : String => (none : Option JsonVal))).error =
          some ProgError.ResponseParseError ∧
      (run ["prog", "f.png", "tok", "1"]
        (fun q => if q = "f.png" then some [9] else none)
        (fun _ => NetOutcome.response 200 "oops")
        (fun _ : String => (none : Option JsonVal))).stdout = []) ∧
    (∀ v, (fun _ : String => (none : Option JsonVal)) "oops" = some v →
      (run ["prog", "f.png", "tok", "1"]
        (fun q => if q = "f.png" then some [9] else none)
        (fun _ => NetOutcome.response 200 "oops")
        (fun _ : String => (none : Option JsonVal))).stdout = [v] ∧
      (run ["prog", "f.png", "tok", "1"]
        (fun q => if q = "f.png" then some [9] else none)
        (fun _ => NetOutcome.response 200 "oops")
        (fun _ : String => (none : Option JsonVal))).error = none) :=
  c5_response_parse ["prog", "f.png", "tok", "1"]
    (fun q => if q = "f.png" then some [9] else none)
    (fun _ => NetOutcome.response 200 "oops")
    (fun _ : String => (none : Option JsonVal)) "f.png" "tok" "1" [9]
    rfl rfl rfl (by decide) 200 "oops" rfl

/-- C6: the run outcome does not depend on the HTTP status code: two
networks answering the same body under any two status codes produce
identical results, and a parseable body is printed as success. -/
theorem c6_status_code_ignored {ρ : Type} (sys_argv : List String)
    (fs : String → Option Bytes) (net1 net2 : Request → NetOutcome)
    (parse : String → Option ρ) (p tok pid : String) (B : Bytes)
    (h1 : sys_argv[1]? = some p) (h2 : sys_argv[2]? = some tok)
    (h3 : sys_argv[3]? = some pid) (hfs : fs p = some B)
    (st1 st2 : Nat) (body : String)
    (hnet1 : net1 (buildRequest p tok pid B) = NetOutcome.response st1 body)
    (hnet2 : net2 (buildRequest p tok pid B) = NetOutcome.response st2 body) :
    run sys_argv fs net1 parse = run sys_argv fs net2 parse ∧
    (∀ v, parse body = some v →
      (run sys_argv fs net1 parse).stdout = [v] ∧
      (run sys_argv fs net1 parse).error = none) := by
  have hrun1 : run sys_argv fs net1 parse =
      printResponse (buildRequest p tok pid B) (parse body) := by
    simp only [run, h1, h2, h3, hfs, finishRequest, hnet1]
  have hrun2 : run sys_argv fs net2 parse =
      printResponse (buildRequest p tok pid B) (parse body) := by
    simp only [run, h1, h2, h3, hfs, finishRequest, hnet2]
  rw [hrun1, hrun2]
  refine ⟨rfl, fun v hp => ?_⟩
  rw [hp]
  exact ⟨rfl, rfl⟩

/-- C6 witness: status 404 and status 200 with the same parseable body
give identical, successful output. -/
theorem c6_status_code_ignored_witness :
    run ["prog", "f.png", "tok", "1"]
      (fun q => if q = "f.png" then some [9] else none)
      (fun _ => NetOutcome.response 404 "null")
      (fun _ => some (JsonVal.str "parsed")) =
    run ["prog", "f.png", "tok", "1"]
      (fun q => if q = "f.png" then some [9] else none)
      (fun _ => NetOutcome.response 200 "null")
      (fun _ => some (JsonVal.str "parsed")) ∧
    (∀ v, (fun _ : String => some (JsonVal.str "parsed")) "null" = some v →
      (run ["prog", "f.png", "tok", "1"]
        (fun q => if q = "f.png" then some [9] else none)
        (fun _ => NetOutcome.response 404 "null")
        (fun _ => some (JsonVal.str "parsed"))).stdout = [v] ∧
      (run ["prog", "f.png", "tok", "1"]
        (fun q => if q = "f.png" then some [9] else none)
        (fun _ => NetOutcome.response 404 "null")
        (fun _ => some (JsonVal.str "parsed"))).error = none) :=
  c6_status_code_ignored ["prog", "f.png", "tok", "1"]
    (fun q => if q = "f.png" then some [9] else none)
    (fun _ => NetOutcome.response 404 "null")
    (fun _ => NetOutcome.response 200 "null")
    (fun _ => some (JsonVal.str "parsed")) "f.png" "tok" "1" [9]
    rfl rfl rfl (by decide) 404 200 "null" rfl rfl

/-- C7: every invocation either completes every step, issuing exactly
one POST and printing exactly one response with no error, or aborts
with an error having printed nothing. -/
theorem c7_no_partial_success {ρ : Type} (sys_argv : List String)
    (fs : String → Option Bytes) (net : Request → NetOutcome)
    (parse : String → Option ρ) :
    ((run sys_argv fs net parse).error = none ∧
      (run sys_argv fs net parse).posts.length = 1 ∧
      ∃ v, (run sys_argv fs net parse).stdout = [v]) ∨
    ((run sys_argv fs net parse).error ≠ none ∧
      (run sys_argv fs net parse).stdout = []) := by
  cases h1 : sys_argv[1]? with
  | none => exact Or.inr (by simp [run, h1])
  | some p =>
      cases hfs : fs p with
      | none => exact Or.inr (by simp [run, h1, hfs])
      | some B =>
          cases h3 : sys_argv[3]? with
          | none => exact Or.inr (by simp [run, h1, hfs, h3])
          | some pid =>
              cases h2 : sys_argv[2]? with
              | none => exact Or.inr (by simp [run, h1, hfs, h3, h2])
              | some tok =>
                  have hrun : run sys_argv fs net parse =
                      finishRequest (buildRequest p tok pid B) net parse := by
                    simp only [run, h1, h2, h3, hfs]
                  rw [hrun]
                  unfold finishRequest
                  cases hnet : net (buildRequest p tok pid B) with
                  | noResponse => exact Or.inr ⟨by simp, rfl⟩
                  | response st body => exact printResponse_anatomy _ _
/-- C8 counterexample: with only one command-line argument naming an
unreadable path, the program fails with FileAccessError, not
ArgumentError (the file open on `sys.argv[1]` runs before `sys.argv[3]`
is read). -/
theorem c8_counterexample :
    (["prog", "nope.png"] : List String).length < 4 ∧
    (run ["prog", "nope.png"] (fun _ => none)
      (fun _ => NetOutcome.noResponse)
      (fun _ => (none : Option JsonVal))).error =
        some ProgError.FileAccessError ∧
    some ProgError.FileAccessError ≠ some ProgError.ArgumentError := by
  refine ⟨by decide, rfl, by decide⟩

/-- C8 amended: with fewer than three command-line arguments the
program aborts before issuing any POST and before printing; the error
is ArgumentError, unless a file path was supplied whose read fails
first, in which case it is FileAccessError. -/
theorem c8_amended_few_arguments {ρ : Type} (sys_argv : List String)
    (fs : String → Option Bytes) (net : Request → NetOutcome)
    (parse : String → Option ρ) (h : sys_argv.length < 4) :
    (run sys_argv fs net parse).posts = [] ∧
    (run sys_argv fs net parse).stdout = [] ∧
    ((run sys_argv fs net parse).error = some ProgError.ArgumentError ∨
      ∃ p, sys_argv[1]? = some p ∧ fs p = none ∧
        (run sys_argv fs net parse).error = some ProgError.FileAccessError) := by
  cases h1 : sys_argv[1]? with
  | none => simp [run, h1]
  | some p =>
      cases hfs : fs p with
      | none =>
          refine ⟨?_, ?_, Or.inr ⟨p, rfl, hfs, ?_⟩⟩ <;> simp [run, h1, hfs]
      | some B =>
          have h3 : sys_argv[3]? = none := List.getElem?_eq_none (by omega)
          simp [run, h1, hfs, h3]

/-- C8 witness: invocation with no arguments at all. -/
theorem c8_amended_few_arguments_witness :
    (["prog"] : List String).length < 4 ∧
    ((run ["prog"] (fun _ => none) (fun _ => NetOutcome.noResponse)
        (fun _ => (none : Option JsonVal))).posts = [] ∧
      (run ["prog"] (fun _ => none) (fun _ => NetOutcome.noResponse)
        (fun _ => (none : Option JsonVal))).stdout = [] ∧
      ((run ["prog"] (fun _ => none) (fun _ => NetOutcome.noResponse)
          (fun _ => (none : Option JsonVal))).error =
            some ProgError.ArgumentError ∨
        ∃ p, (["prog"] : List String)[1]? = some p ∧
          (fun _ : String => (none : Option Bytes)) p = none ∧
          (run ["prog"] (fun _ => none) (fun _ => NetOutcome.noResponse)
            (fun _ => (none : Option JsonVal))).error =
              some ProgError.FileAccessError)) :=
  ⟨by decide,
   c8_amended_few_arguments ["prog"] (fun _ => none)
    (fun _ => NetOutcome.noResponse) (fun _ => (none : Option JsonVal))
    (by decide)⟩
/-- C7 witness: the dichotomy evaluated at a concrete successful
invocation. -/
theorem c7_no_partial_success_witness :
    ((run ["prog", "f.png", "tok", "1"]
        (fun q => if q = "f.png" then some [9] else none)
        (fun _ => NetOutcome.response 200 "null")
        (fun _ => some (JsonVal.str "ok"))).error = none ∧
      (run ["prog", "f.png", "tok", "1"]
        (fun q => if q = "f.png" then some [9] else none)
        (fun _ => NetOutcome.response 200 "null")
        (fun _ => some (JsonVal.str "ok"))).posts.length = 1 ∧
      ∃ v, (run ["prog", "f.png", "tok", "1"]
        (fun q => if q = "f.png" then some [9] else none)
        (fun _ => NetOutcome.response 200 "null")
        (fun _ => some (JsonVal.str "ok"))).stdout = [v]) ∨
    ((run ["prog", "f.png", "tok", "1"]
        (fun q => if q = "f.png" then some [9] else none)
        (fun _ => NetOutcome.response 200 "null")
        (fun _ => some (JsonVal.str "ok"))).error ≠ none ∧
      (run ["prog", "f.png", "tok", "1"]
        (fun q => if q = "f.png" then some [9] else none)
        (fun _ => NetOutcome.response 200 "null")
        (fun _ => some (JsonVal.str "ok"))).stdout = []) :=
  c7_no_partial_success ["prog", "f.png", "tok", "1"]
    (fun q => if q = "f.png" then some [9] else none)
    (fun _ => NetOutcome.response 200 "null")
    (fun _ => some (JsonVal.str "ok"))

end ImageUpload
